import Mathlib

/-!
Verification of the Jetflix movie-search program (src/main.py) against its
natural-language specification.

The embedding is shallow: every Python function that the claims mention is
translated into a Lean definition over explicit data.

  * A Python dict (a movie record, a CSV row, the JSON body of a response)
    is an association list with unique keys; `pyGet` models `d[k]` /
    `k in d`, and `dictSet` models `d[k] = v`.
  * Python exceptions are modelled with `Except PyErr`: a statement that can
    raise returns `.error e` instead of a value, and the surrounding code
    propagates the error exactly where Python would.
  * Object identity: the catalog is a heap (`List Movie`) and a ScoredMatch
    holds an index into it, so that one record referenced from several cached
    result sets is literally shared, as in Python.
  * The external primitives that the program calls but does not define are
    parameters: `ratio` stands for the fuzzywuzzy similarity primitive used at
    line 106 of src/main.py, `fetch` for the HTTP transport of `requests.get`,
    and `pyFloat` for the builtin `float` constructor where a claim does not
    depend on its exact grammar.
  * Python string primitives (`split`, `lower`, `strip`, slicing, quotation
    tests) are re-implemented structurally over `List Char` so that every
    definition evaluates inside the kernel on concrete inputs.
-/

namespace Jetflix

/-! ### Python string primitives, modelled structurally -/

/-- Split a character list at every character satisfying `p`, keeping empty
groups, as Python `str.split(c)` does for a one-character separator. -/
def splitOnP (p : Char → Bool) : List Char → List (List Char)
  | [] => [[]]
  | c :: cs =>
    if p c then [] :: splitOnP p cs
    else
      match splitOnP p cs with
      | [] => [[c]]
      | g :: gs => (c :: g) :: gs

/-- Prepend a character to the first group of a split result. -/
def consHead (x : Char) : List (List Char) → List (List Char)
  | [] => [[x]]
  | g :: gs => (x :: g) :: gs

/-- Split a character list on a three-character separator, scanning left to
right over non-overlapping occurrences, as Python `str.split(sep)` does. -/
def split3 (s1 s2 s3 : Char) : List Char → List (List Char)
  | x :: y :: z :: rest =>
    if x == s1 && y == s2 && z == s3 then [] :: split3 s1 s2 s3 rest
    else consHead x (split3 s1 s2 s3 (y :: z :: rest))
  | x :: rest => consHead x (split3 s1 s2 s3 rest)
  | [] => [[]]

/-- Python `str.split()` with no argument: split on whitespace runs and drop
the empty groups (so the empty string yields no tokens). Models line 88. -/
def pySplitWs (s : String) : List String :=
  ((splitOnP Char.isWhitespace s.data).map String.mk).filter (fun t => t != "")

/-- Python `part.split(":")`, the parse at line 96 of src/main.py. -/
def pySplitColon (s : String) : List String :=
  (splitOnP (fun c => c == ':') s.data).map String.mk

/-- Python `s.split(".")`, used to model the builtin `float` on decimals. -/
def pySplitDot (s : String) : List String :=
  (splitOnP (fun c => c == '.') s.data).map String.mk

/-- Python `row["genre"].split(" | ")` (line 26): split on the literal
three-character separator `" | "`.  No trimming is performed. -/
def genreSplit (s : String) : List String :=
  (split3 ' ' '|' ' ' s.data).map String.mk

/-- Python `str.lower` (ASCII case folding suffices for the claims). -/
def pyLower (s : String) : String := String.mk (s.data.map Char.toLower)

/-- Python `str.strip()`: remove leading and trailing whitespace. -/
def pyStrip (s : String) : String :=
  String.mk (((s.data.dropWhile Char.isWhitespace).reverse.dropWhile
    Char.isWhitespace).reverse)

/-- Python `c in s` for a one-character needle (line 94). -/
def pyContains (s : String) (c : Char) : Bool := s.data.contains c

/-- Python `s.startswith(pre)`. -/
def pyStartsWith (s pre : String) : Bool := pre.data.isPrefixOf s.data

/-- Python `s.endswith(suf)`. -/
def pyEndsWith (s suf : String) : Bool := suf.data.isSuffixOf s.data

/-- Python `s[1:-1]`: drop the first and the last character (line 99). -/
def pySlice1m1 (s : String) : String := String.mk (s.data.drop 1).dropLast

/-- Python `sep.join(xs)`. -/
def pyJoin (sep : String) : List String → String
  | [] => ""
  | [x] => x
  | x :: xs => x ++ sep ++ pyJoin sep xs

/-- Python `repr` of a plain string (no escaping needed for the catalog). -/
def pyRepr (s : String) : String := "\x27" ++ s ++ "\x27"

/-! ### Data model -/

/-- The Python exceptions the program can raise. -/
inductive PyErr where
  | valueError
  | keyError
  | attrError
  | netError
  | jsonError
  deriving DecidableEq

deriving instance DecidableEq for Except

/-- A value stored in a movie record: CSV cells are strings, the year may be
converted to an integer, the genre becomes a list, and the rating fetched
later is a float or Python `None`.  Rationals stand in for Python floats;
no claim depends on float rounding. -/
inductive Value where
  | str (s : String)
  | int (n : Int)
  | list (gs : List String)
  | float (q : Rat)
  | pyNone
  deriving DecidableEq

/-- Python `str(v)` for the values a record can hold.  (For `float` the
rendering is approximated by the rational printer; no claim evaluates it.) -/
def pyStr : Value → String
  | .str s => s
  | .int n => toString n
  | .list gs => "[" ++ pyJoin ", " (gs.map pyRepr) ++ "]"
  | .float q => toString q
  | .pyNone => "None"

/-- A movie record: a Python dict from field name to value. -/
abbrev Movie := List (String × Value)

/-- A raw CSV row as produced by `csv.DictReader`: field name to cell text. -/
abbrev Row := List (String × String)

/-- Python `d[k]` / `d.get(k)` / `k in d` on a dict modelled as an
association list with unique keys: the value at the first matching key. -/
def pyGet {β : Type} (k : String) : List (String × β) → Option β
  | [] => none
  | kv :: m => if kv.1 == k then some kv.2 else pyGet k m

/-- Python `d[k] = v` on a dict: replace the value if the key is present
(keeping insertion order), otherwise append the new binding. -/
def dictSet (m : Movie) (k : String) (v : Value) : Movie :=
  if (pyGet k m).isSome then
    m.map (fun kv => if kv.1 == k then (kv.1, v) else kv)
  else m ++ [(k, v)]

/-- Replace the element at an index of a list, leaving the list unchanged
when the index is out of range. -/
def listModify {α : Type} (f : α → α) : List α → Nat → List α
  | [], _ => []
  | a :: as, 0 => f a :: as
  | a :: as, n + 1 => a :: listModify f as n

/-! ### Catalog Loader (load_movies, src/main.py lines 7-28) -/

/-- Numeric value of a digit list (most significant first). -/
def digitsVal (cs : List Char) : Nat :=
  cs.foldl (fun a c => a * 10 + (c.toNat - 48)) 0

/-- A non-empty all-digit character list, or failure. -/
def decDigits (cs : List Char) : Option Nat :=
  if cs.isEmpty then none
  else if cs.all Char.isDigit then some (digitsVal cs) else none

/-- The builtin `int(s)` on strings: strip whitespace, optional sign, then
decimal digits; `none` models the `ValueError` that `load_movies` catches. -/
def pyInt (s : String) : Option Int :=
  match (pyStrip s).data with
  | '-' :: cs => (decDigits cs).map (fun n => -(n : Int))
  | '+' :: cs => (decDigits cs).map (fun n => (n : Int))
  | cs => (decDigits cs).map (fun n => (n : Int))

/-- The builtin `float(s)` on the decimal forms the rating service produces:
optional sign, digits, optional fractional digits; `none` models the
`ValueError` raised on text such as `N/A`. -/
def str2floatCore (t : String) : Option Rat :=
  match pySplitDot t with
  | [a] => (decDigits a.data).map (fun n => (n : Rat))
  | [a, b] =>
    match decDigits a.data, decDigits b.data with
    | some x, some y => some ((x : Rat) + (y : Rat) / ((10 : Rat) ^ b.data.length))
    | _, _ => none
  | _ => none

/-- `float(s)` with the sign and surrounding whitespace handled. -/
def str2float (s : String) : Option Rat :=
  match (pyStrip s).data with
  | '-' :: cs => (str2floatCore (String.mk cs)).map (fun q => -q)
  | '+' :: cs => str2floatCore (String.mk cs)
  | _ => str2floatCore (pyStrip s)

/-- One iteration of the row loop in `load_movies` (lines 19-27): try to
convert `row["year"]` to an integer keeping the text on `ValueError` (a
missing `year` key is an uncaught `KeyError`), then replace `row["genre"]`
by the list obtained from `split(" | ")` (missing key again fatal). -/
def processRowYear (row : Row) (yearStr : String) : Movie :=
  match pyInt yearStr with
  | some n => dictSet (row.map (fun kv => (kv.1, Value.str kv.2))) "year" (.int n)
  | none => row.map (fun kv => (kv.1, Value.str kv.2))

/-- The rest of the row loop: `row["year"] = int(row["year"])` guarded by the
`except ValueError: pass`, then `row["genre"] = row["genre"].split(" | ")`. -/
def processRow (row : Row) : Except PyErr Movie :=
  match pyGet "year" row with
  | none => .error .keyError
  | some yearStr =>
    match pyGet "genre" row with
    | none => .error .keyError
    | some genreStr =>
      .ok (dictSet (processRowYear row yearStr) "genre"
        (.list (genreSplit genreStr)))

/-- `load_movies`, abstracted over the already-parsed CSV rows (file and CSV
framing are I/O glue outside the claims). -/
def load_movies : List Row → Except PyErr (List Movie)
  | [] => .ok []
  | r :: rs =>
    match processRow r with
    | .error e => .error e
    | .ok m =>
      match load_movies rs with
      | .error e => .error e
      | .ok ms => .ok (m :: ms)

/-- The genre transformation as claim C8 words it: split on the literal
separator and then trim each element.  Declared only to be compared with the
source behaviour above; the source performs no trimming. -/
def genreSplitTrimmedSpec (s : String) : List String :=
  (genreSplit s).map pyStrip

/-! ### Match Engine (perform_search, src/main.py lines 76-116) -/

/-- Lines 98-99: remove the surrounding double quotes from the value of a
field token when both the first and the last character are a quote. -/
def stripQuotes (value : String) : String :=
  if pyStartsWith value "\"" && pyEndsWith value "\"" then pySlice1m1 value
  else value

/-- One query token evaluated against one record: the body of the
`for part in query_parts` loop (lines 93-108).  A token containing a colon is
unpacked by `field, value = part.split(":")`, which raises `ValueError`
unless the split has exactly two parts; surrounding double quotes are
stripped from the value; the token scores 1 exactly when the record has the
field and its text equals the value case-insensitively.  A token without a
colon is fuzzy-matched against `movie["title"]` (KeyError if absent,
AttributeError if not a string) through the external `ratio` primitive. -/
def tokenScore (ratio : String → String → Nat) (movie : Movie) (part : String) :
    Except PyErr Nat :=
  if pyContains part ':' then
    match pySplitColon part with
    | [field, value0] =>
      match pyGet field movie with
      | some v =>
        if pyLower (pyStr v) == pyLower (stripQuotes value0) then .ok 1
        else .ok 0
      | none => .ok 0
    | _ => .error .valueError
  else
    match pyGet "title" movie with
    | some (.str title) =>
      if 70 ≤ ratio (pyLower part) (pyLower title) then .ok 1 else .ok 0
    | some _ => .error .attrError
    | none => .error .keyError

/-- The `match_count` accumulation over all tokens for one record. -/
def movieScore (ratio : String → String → Nat) (movie : Movie) :
    List String → Nat → Except PyErr Nat
  | [], acc => .ok acc
  | part :: parts, acc =>
    match tokenScore ratio movie part with
    | .error e => .error e
    | .ok c => movieScore ratio movie parts (acc + c)

/-- The per-record loop of `perform_search` (lines 90-112): keep
`(match_count, movie)` for the records with positive count, in catalog
order. -/
def keptList (ratio : String → String → Nat) (parts : List String) :
    List Movie → Except PyErr (List (Nat × Movie))
  | [] => .ok []
  | m :: ms =>
    match movieScore ratio m parts 0 with
    | .error e => .error e
    | .ok c =>
      match keptList ratio parts ms with
      | .error e => .error e
      | .ok rest => .ok (if 0 < c then (c, m) :: rest else rest)

/-- Stable insertion for the descending sort: the new pair goes in front of
the first element whose score does not exceed its own, so earlier elements
win ties. -/
def insertDesc {α : Type} (x : Nat × α) : List (Nat × α) → List (Nat × α)
  | [] => [x]
  | y :: ys => if y.1 ≤ x.1 then x :: y :: ys else y :: insertDesc x ys

/-- `results.sort(key=lambda x: x[0], reverse=True)` (line 114): Python list
sort is stable and `reverse=True` preserves the order of equal keys, so its
extensional behaviour is exactly the stable descending sort by score. -/
def sortDesc {α : Type} : List (Nat × α) → List (Nat × α)
  | [] => []
  | x :: xs => insertDesc x (sortDesc xs)

/-- `perform_search` (lines 76-116). -/
def perform_search (ratio : String → String → Nat) (query : String)
    (movies : List Movie) : Except PyErr (List (Nat × Movie)) :=
  match keptList ratio (pySplitWs query) movies with
  | .error e => .error e
  | .ok results => .ok (sortDesc results)

/-- The per-record loop again, producing heap references (indices into the
catalog store) instead of copies: in Python `results.append((score, movie))`
appends a reference to the shared record object. -/
def keptRefs (ratio : String → String → Nat) (parts : List String) :
    Nat → List Movie → Except PyErr (List (Nat × Nat))
  | _, [] => .ok []
  | i, m :: ms =>
    match movieScore ratio m parts 0 with
    | .error e => .error e
    | .ok c =>
      match keptRefs ratio parts (i + 1) ms with
      | .error e => .error e
      | .ok rest => .ok (if 0 < c then (c, i) :: rest else rest)

/-- `perform_search` in the heap model used by the session: scores are
identical to `perform_search`, results name records by store index. -/
def perform_search_refs (ratio : String → String → Nat) (query : String)
    (store : List Movie) : Except PyErr (List (Nat × Nat)) :=
  match keptRefs ratio (pySplitWs query) 0 store with
  | .error e => .error e
  | .ok results => .ok (sortDesc results)

/-! ### Rating Fetcher (get_imdb_rating and fetch_imdb_ratings, lines 118-138) -/

/-- The model of an HTTP response: a status code and the outcome of
`response.json()`, which raises on a malformed body.  The JSON object is an
association list of string fields, as the OMDb body is. -/
structure HttpResponse where
  status_code : Int
  jsonBody : Except PyErr (List (String × String))
  deriving DecidableEq

/-- `get_imdb_rating` (lines 127-138), abstracted over the single transport
call `requests.get(url)` — the one `resp` argument is the outcome of the one
request the function issues (`.error` models a raised network exception) —
and over the builtin `float`, `pyFloat`, where `none` models `ValueError`.
The source wraps none of these in try/except, so each failure propagates. -/
def get_imdb_rating (pyFloat : String → Option Rat)
    (resp : Except PyErr HttpResponse) : Except PyErr (Option Rat) :=
  match resp with
  | .error e => .error e
  | .ok response =>
    if response.status_code == 200 then
      match response.jsonBody with
      | .error e => .error e
      | .ok data =>
        match pyGet "imdbRating" data with
        | some rating =>
          if rating != "" then
            match pyFloat rating with
            | some v => .ok (some v)
            | none => .error .valueError
          else .ok none
        | none => .ok none
    else .ok none

/-- `requests.get`, with the transport modelled as the stream of outcomes
that successive requests would receive and an explicit running count of the
requests issued so far: one call consumes the next outcome and increments
the count by one, whether the request succeeds or raises. -/
def requests_get (net : Nat → Except PyErr HttpResponse) (calls : Nat) :
    Except PyErr HttpResponse × Nat :=
  (net calls, calls + 1)

/-- `get_imdb_rating` with the request accounting made explicit: the body of
lines 127-138 contains a single `requests.get(url)` and never touches the
transport again, so the call count rises by exactly one per invocation —
also on failure, since nothing in the function retries. -/
def get_imdb_rating_counting (pyFloat : String → Option Rat)
    (net : Nat → Except PyErr HttpResponse) (calls : Nat) :
    Except PyErr (Option Rat) × Nat :=
  let rc := requests_get net calls
  (get_imdb_rating pyFloat rc.1, rc.2)

/-- The value Python stores with `movie["imdb_rating"] = rating`: the float,
or `None` when the fetch came back empty-handed. -/
def ratingValue : Option Rat → Value
  | some q => .float q
  | none => .pyNone

/-- `movie["title"]` for a record named by a store index, rendered to the
string interpolated into the request URL. -/
def getTitle (store : List Movie) (r : Nat) : Except PyErr String :=
  match store.get? r with
  | some m =>
    match pyGet "title" m with
    | some v => .ok (pyStr v)
    | none => .error .keyError
  | none => .error .keyError

/-- `movie["imdb_rating"] = rating`: mutate the shared record in the store. -/
def setRating (store : List Movie) (r : Nat) (rat : Option Rat) : List Movie :=
  listModify (fun m => dictSet m "imdb_rating" (ratingValue rat)) store r

/-- `fetch_imdb_ratings` (lines 118-125) in the heap model: one fetch per
result entry, in order, each one mutating the referenced record in place.
`fetch` abstracts `get_imdb_rating` applied to the live transport. -/
def fetch_imdb_ratings (fetch : String → Except PyErr (Option Rat))
    (store : List Movie) : List (Nat × Nat) → Except PyErr (List Movie)
  | [] => .ok store
  | sm :: rest =>
    match getTitle store sm.2 with
    | .error e => .error e
    | .ok title =>
      match fetch title with
      | .error e => .error e
      | .ok rat => fetch_imdb_ratings fetch (setRating store sm.2 rat) rest

/-- The rating the rendering loop reads through a ScoredMatch:
`movie.get("imdb_rating", ...)` on the record the entry references. -/
def observeRating (store : List Movie) (sm : Nat × Nat) : Option Value :=
  match store.get? sm.2 with
  | some m => pyGet "imdb_rating" m
  | none => none

/-! ### Session Controller (search, src/main.py lines 31-73) -/

/-- The value `search` returns: `"exit"`, `"last"`, or Python `None`. -/
inductive SearchRet where
  | exitRet
  | lastRet
  | noneRet
  deriving DecidableEq

/-- The mutable session state owned by `main`: the catalog store (the heap
holding the shared record objects), the history of result sets, the cache
keyed by raw query string, and a counter of rating-fetch calls made so far
(one per result entry of each novel search). -/
structure SessionState where
  store : List Movie
  history : List (List (Nat × Nat))
  cache : List (String × List (Nat × Nat))
  fetchCount : Nat
  deriving DecidableEq

/-- One step of `search` (lines 31-73): the returned triple is the value
`search` returns, the result set the step renders (`none` for the exit and
last branches, whose printing the claims do not touch), and the state after
the step.  Branch order follows the source: exit test, last test, cache
membership test, novel search. -/
def search (ratio : String → String → Nat)
    (fetch : String → Except PyErr (Option Rat)) (query : String)
    (st : SessionState) :
    Except PyErr (SearchRet × Option (List (Nat × Nat)) × SessionState) :=
  if pyLower query == "exit" then .ok (.exitRet, none, st)
  else if pyLower query == "last" then
    if st.history.isEmpty then .ok (.noneRet, none, st)
    else .ok (.lastRet, none, st)
  else
    match pyGet query st.cache with
    | some results => .ok (.noneRet, some results, st)
    | none =>
      match perform_search_refs ratio query st.store with
      | .error e => .error e
      | .ok results =>
        match fetch_imdb_ratings fetch st.store results with
        | .error e => .error e
        | .ok store2 =>
          .ok (.noneRet, some results,
            ⟨store2, st.history ++ [results], st.cache ++ [(query, results)],
              st.fetchCount + results.length⟩)

/-! ### Lemmas about the stable descending sort -/

theorem insertDesc_perm {α : Type} (x : Nat × α) (l : List (Nat × α)) :
    (insertDesc x l).Perm (x :: l) := by
  induction l with
  | nil => simp [insertDesc]
  | cons y ys ih =>
    by_cases h : y.1 ≤ x.1
    · simp [insertDesc, h]
    · simp only [insertDesc, if_neg h]
      exact (ih.cons y).trans (List.Perm.swap x y ys)

theorem sortDesc_perm {α : Type} (l : List (Nat × α)) :
    (sortDesc l).Perm l := by
  induction l with
  | nil => simp [sortDesc]
  | cons x xs ih =>
    exact (insertDesc_perm x (sortDesc xs)).trans (ih.cons x)

theorem insertDesc_pairwise {α : Type} (x : Nat × α) (l : List (Nat × α))
    (hl : l.Pairwise (fun a b => b.1 ≤ a.1)) :
    (insertDesc x l).Pairwise (fun a b => b.1 ≤ a.1) := by
  induction l with
  | nil => simp [insertDesc]
  | cons y ys ih =>
    rcases List.pairwise_cons.mp hl with ⟨hy, hys⟩
    by_cases h : y.1 ≤ x.1
    · simp only [insertDesc, if_pos h]
      refine List.pairwise_cons.mpr ⟨?_, hl⟩
      intro z hz
      rcases List.mem_cons.mp hz with hz1 | hz1
      · subst hz1
        exact h
      · exact le_trans (hy z hz1) h
    · simp only [insertDesc, if_neg h]
      refine List.pairwise_cons.mpr ⟨?_, ih hys⟩
      intro z hz
      rcases List.mem_cons.mp ((insertDesc_perm x ys).mem_iff.mp hz) with hz1 | hz1
      · subst hz1
        exact le_of_not_le h
      · exact hy z hz1

theorem sortDesc_pairwise {α : Type} (l : List (Nat × α)) :
    (sortDesc l).Pairwise (fun a b => b.1 ≤ a.1) := by
  induction l with
  | nil => simp [sortDesc]
  | cons x xs ih => exact insertDesc_pairwise x (sortDesc xs) ih

theorem insertDesc_filter_score {α : Type} (x : Nat × α) (l : List (Nat × α))
    (s : Nat) :
    (insertDesc x l).filter (fun p => p.1 == s) =
      if x.1 == s then x :: l.filter (fun p => p.1 == s)
      else l.filter (fun p => p.1 == s) := by
  induction l with
  | nil => by_cases h : x.1 == s <;> simp [insertDesc, List.filter, h]
  | cons y ys ih =>
    by_cases h : y.1 ≤ x.1
    · by_cases hx : x.1 == s <;> simp [insertDesc, if_pos h, List.filter, hx]
    · have hy : (y.1 == s) = true → ¬(x.1 == s) = true := by
        intro h1 h2
        exact h (Nat.le_of_eq ((eq_of_beq h1).trans (eq_of_beq h2).symm))
      by_cases hys : y.1 == s
      · have hxs : ¬(x.1 == s) = true := hy hys
        simp [insertDesc, if_neg h, List.filter, hys, ih, hxs]
      · by_cases hxs : x.1 == s <;>
          simp [insertDesc, if_neg h, List.filter, hys, ih, hxs]

theorem sortDesc_filter_score {α : Type} (l : List (Nat × α)) (s : Nat) :
    (sortDesc l).filter (fun p => p.1 == s) = l.filter (fun p => p.1 == s) := by
  induction l with
  | nil => rfl
  | cons x xs ih =>
    by_cases hx : x.1 == s <;>
      simp [sortDesc, insertDesc_filter_score, hx, List.filter, ih]

/-! ### Lemmas about the match engine -/

theorem tokenScore_cases (ratio : String → String → Nat) (movie : Movie)
    (part : String) :
    (∃ e, tokenScore ratio movie part = .error e) ∨
      tokenScore ratio movie part = .ok 0 ∨
        tokenScore ratio movie part = .ok 1 := by
  unfold tokenScore
  repeat' split
  all_goals simp

theorem tokenScore_le_one (ratio : String → String → Nat) (movie : Movie)
    (part : String) (c : Nat) (h : tokenScore ratio movie part = .ok c) :
    c ≤ 1 := by
  rcases tokenScore_cases ratio movie part with ⟨e, he⟩ | h0 | h1
  · rw [he] at h
    exact Except.noConfusion h
  · rw [h0] at h
    injection h with e1
    omega
  · rw [h1] at h
    injection h with e1
    omega

/-- The colon branch of the token loop, with the parse fixed: the token is
scored by the field lookup alone. -/
theorem tokenScore_colon (ratio : String → String → Nat) (movie : Movie)
    (part f v : String) (hc : pyContains part ':' = true)
    (hs : pySplitColon part = [f, v]) :
    tokenScore ratio movie part =
      match pyGet f movie with
      | some w =>
        if pyLower (pyStr w) == pyLower (stripQuotes v) then .ok 1 else .ok 0
      | none => .ok 0 := by
  unfold tokenScore
  rw [if_pos hc, hs]

/-- A token whose colon parse fails with more than two pieces raises
`ValueError` no matter the record or similarity primitive. -/
theorem tokenScore_multicolon (ratio : String → String → Nat) (movie : Movie)
    (part : String) (hc : pyContains part ':' = true)
    (hs : ∀ f v, pySplitColon part ≠ [f, v]) :
    tokenScore ratio movie part = .error .valueError := by
  unfold tokenScore
  rw [if_pos hc]
  rcases hsp : pySplitColon part with _ | ⟨f, _ | ⟨v, _ | _⟩⟩
  · rfl
  · rfl
  · exact absurd hsp (hs f v)
  · rfl

/-- Every token evaluates without an exception when its colon parse has
exactly two pieces (for colon tokens) and the record has a string title
(for fuzzy tokens). -/
theorem tokenScore_ok (ratio : String → String → Nat) (movie : Movie)
    (part : String)
    (htitle : ∃ t, pyGet "title" movie = some (Value.str t))
    (hcolon : pyContains part ':' = true → ∃ f v, pySplitColon part = [f, v]) :
    ∃ c, tokenScore ratio movie part = .ok c := by
  by_cases hc : pyContains part ':' = true
  · obtain ⟨f, v, hs⟩ := hcolon hc
    rw [tokenScore_colon ratio movie part f v hc hs]
    rcases pyGet f movie with _ | w
    · exact ⟨0, rfl⟩
    · show ∃ c, (if pyLower (pyStr w) == pyLower (stripQuotes v) then
          (Except.ok 1 : Except PyErr Nat) else .ok 0) = .ok c
      split
      · exact ⟨1, rfl⟩
      · exact ⟨0, rfl⟩
  · obtain ⟨t, ht⟩ := htitle
    unfold tokenScore
    rw [if_neg hc, ht]
    show ∃ c, (if 70 ≤ ratio (pyLower part) (pyLower t) then
        (Except.ok 1 : Except PyErr Nat) else .ok 0) = .ok c
    split
    · exact ⟨1, rfl⟩
    · exact ⟨0, rfl⟩

theorem movieScore_ok (ratio : String → String → Nat) (movie : Movie)
    (parts : List String)
    (h : ∀ part ∈ parts, ∃ c, tokenScore ratio movie part = .ok c) :
    ∀ acc, ∃ n, movieScore ratio movie parts acc = .ok n := by
  induction parts with
  | nil => exact fun acc => ⟨acc, rfl⟩
  | cons p ps ih =>
    intro acc
    obtain ⟨c, hc⟩ := h p (List.mem_cons_self _ _)
    obtain ⟨n, hn⟩ := ih (fun q hq => h q (List.mem_cons_of_mem _ hq)) (acc + c)
    refine ⟨n, ?_⟩
    unfold movieScore
    rw [hc]
    exact hn

theorem keptList_ok (ratio : String → String → Nat) (parts : List String)
    (movies : List Movie)
    (h : ∀ m ∈ movies, ∃ n, movieScore ratio m parts 0 = .ok n) :
    ∃ kept, keptList ratio parts movies = .ok kept := by
  induction movies with
  | nil => exact ⟨[], rfl⟩
  | cons m0 ms ih =>
    obtain ⟨n, hn⟩ := h m0 (List.mem_cons_self _ _)
    obtain ⟨rest, hrest⟩ := ih (fun m hm => h m (List.mem_cons_of_mem _ hm))
    refine ⟨if 0 < n then (n, m0) :: rest else rest, ?_⟩
    unfold keptList
    rw [hn, hrest]

theorem movieScore_bounds (ratio : String → String → Nat) (movie : Movie)
    (parts : List String) (acc n : Nat)
    (h : movieScore ratio movie parts acc = .ok n) :
    acc ≤ n ∧ n ≤ acc + parts.length := by
  induction parts generalizing acc with
  | nil =>
    cases h
    simp
  | cons part parts ih =>
    unfold movieScore at h
    rcases ht : tokenScore ratio movie part with e | c <;> rw [ht] at h
    · exact absurd h (by simp)
    · have hb := ih (acc + c) h
      have hc := tokenScore_le_one ratio movie part c ht
      simp only [List.length_cons]
      omega

theorem movieScore_all_zero (ratio : String → String → Nat) (movie : Movie)
    (parts : List String) (acc : Nat)
    (h : ∀ part ∈ parts, tokenScore ratio movie part = .ok 0) :
    movieScore ratio movie parts acc = .ok acc := by
  induction parts generalizing acc with
  | nil => rfl
  | cons part parts ih =>
    unfold movieScore
    rw [h part (List.mem_cons_self part parts)]
    exact ih acc (fun p hp => h p (List.mem_cons_of_mem part hp))

theorem keptList_mem (ratio : String → String → Nat) (parts : List String)
    (movies : List Movie) (kept : List (Nat × Movie)) (s : Nat) (m : Movie)
    (hk : keptList ratio parts movies = .ok kept) (hm : (s, m) ∈ kept) :
    movieScore ratio m parts 0 = .ok s ∧ 0 < s ∧ m ∈ movies := by
  induction movies generalizing kept with
  | nil =>
    cases hk
    exact absurd hm (List.not_mem_nil _)
  | cons m0 ms ih =>
    unfold keptList at hk
    rcases hs : movieScore ratio m0 parts 0 with e | c <;> rw [hs] at hk
    · exact absurd hk (by simp)
    · rcases hr : keptList ratio parts ms with e | rest <;> rw [hr] at hk
      · exact absurd hk (by simp)
      · cases hk
        by_cases hc : 0 < c
        · rw [if_pos hc] at hm
          rcases List.mem_cons.mp hm with h1 | h1
          · injection h1 with e1 e2
            subst e1
            subst e2
            exact ⟨hs, hc, List.mem_cons_self _ _⟩
          · have h2 := ih rest hr h1
            exact ⟨h2.1, h2.2.1, List.mem_cons_of_mem m0 h2.2.2⟩
        · rw [if_neg hc] at hm
          have h2 := ih rest hr hm
          exact ⟨h2.1, h2.2.1, List.mem_cons_of_mem m0 h2.2.2⟩

theorem keptList_sublist (ratio : String → String → Nat) (parts : List String)
    (movies : List Movie) (kept : List (Nat × Movie))
    (hk : keptList ratio parts movies = .ok kept) :
    (kept.map Prod.snd).Sublist movies := by
  induction movies generalizing kept with
  | nil =>
    cases hk
    simp
  | cons m0 ms ih =>
    unfold keptList at hk
    rcases hs : movieScore ratio m0 parts 0 with e | c <;> rw [hs] at hk
    · exact absurd hk (by simp)
    · rcases hr : keptList ratio parts ms with e | rest <;> rw [hr] at hk
      · exact absurd hk (by simp)
      · cases hk
        by_cases hc : 0 < c
        · rw [if_pos hc]
          simpa using (ih rest hr).cons₂ m0
        · rw [if_neg hc]
          exact (ih rest hr).cons m0

theorem keptList_all_zero (ratio : String → String → Nat) (parts : List String)
    (movies : List Movie)
    (h : ∀ m ∈ movies, movieScore ratio m parts 0 = .ok 0) :
    keptList ratio parts movies = .ok [] := by
  induction movies with
  | nil => rfl
  | cons m0 ms ih =>
    unfold keptList
    rw [h m0 (List.mem_cons_self m0 ms),
      ih (fun m hm => h m (List.mem_cons_of_mem m0 hm))]
    rfl

/-! ### Lemmas about the heap model and the rating fetch -/

theorem pyGet_map_replace (k k2 : String) (v : Value) (m : Movie)
    (h : k2 ≠ k) :
    pyGet k2 (m.map (fun kv => if kv.1 == k then (kv.1, v) else kv)) =
      pyGet k2 m := by
  induction m with
  | nil => rfl
  | cons kv m ih =>
    simp only [beq_iff_eq] at ih
    by_cases hk : kv.1 = k
    · have h2 : kv.1 ≠ k2 := fun e => h (e ▸ hk)
      simp [pyGet, beq_iff_eq, hk, h2, Ne.symm h, ih]
    · by_cases h3 : kv.1 = k2 <;> simp [pyGet, beq_iff_eq, hk, h3, h, ih]

theorem pyGet_append_single (k k2 : String) (v : Value) (m : Movie)
    (h : k2 ≠ k) : pyGet k2 (m ++ [(k, v)]) = pyGet k2 m := by
  induction m with
  | nil => simp [pyGet, beq_iff_eq, Ne.symm h]
  | cons kv m ih =>
    by_cases h3 : kv.1 = k2 <;> simp [pyGet, beq_iff_eq, h3, ih]

theorem pyGet_dictSet_ne (m : Movie) (k k2 : String) (v : Value)
    (h : k2 ≠ k) : pyGet k2 (dictSet m k v) = pyGet k2 m := by
  unfold dictSet
  by_cases hs : (pyGet k m).isSome
  · rw [if_pos hs]
    exact pyGet_map_replace k k2 v m h
  · rw [if_neg hs]
    exact pyGet_append_single k k2 v m h

theorem pyGet_dictSet_self (m : Movie) (k : String) (v : Value) :
    pyGet k (dictSet m k v) = some v := by
  unfold dictSet
  by_cases hs : (pyGet k m).isSome
  · rw [if_pos hs]
    induction m with
    | nil => simp [pyGet] at hs
    | cons kv m ih =>
      simp only [beq_iff_eq] at ih
      by_cases hk : kv.1 = k
      · simp [pyGet, beq_iff_eq, hk]
      · simp only [pyGet, beq_iff_eq, if_neg hk] at hs
        simp [pyGet, beq_iff_eq, hk, ih hs]
  · rw [if_neg hs]
    induction m with
    | nil => simp [pyGet]
    | cons kv m ih =>
      by_cases hk : kv.1 = k
      · simp [pyGet, beq_iff_eq, hk] at hs
      · simp only [pyGet, beq_iff_eq, if_neg hk] at hs
        simp [pyGet, beq_iff_eq, hk, ih hs]

theorem listModify_get_self {α : Type} (f : α → α) (l : List α) (r : Nat) :
    (listModify f l r).get? r = (l.get? r).map f := by
  induction l generalizing r with
  | nil => simp [listModify]
  | cons a as ih =>
    rcases r with _ | r
    · simp [listModify]
    · simpa [listModify] using ih r

theorem listModify_get_ne {α : Type} (f : α → α) (l : List α) (r r2 : Nat)
    (h : r2 ≠ r) : (listModify f l r).get? r2 = l.get? r2 := by
  induction l generalizing r r2 with
  | nil => simp [listModify]
  | cons a as ih =>
    rcases r with _ | r
    · rcases r2 with _ | r2
      · exact absurd rfl h
      · simp [listModify]
    · rcases r2 with _ | r2
      · simp [listModify]
      · simpa [listModify] using ih r r2 (fun e => h (congrArg Nat.succ e))

theorem setRating_title (store : List Movie) (r r2 : Nat) (rat : Option Rat) :
    (pyGet "title" <$> (setRating store r rat).get? r2) =
      (pyGet "title" <$> store.get? r2) := by
  by_cases h : r2 = r
  · subst h
    unfold setRating
    rw [listModify_get_self]
    rcases store.get? r2 with _ | m
    · rfl
    · simp [pyGet_dictSet_ne _ _ _ _ (by decide : "title" ≠ "imdb_rating")]
  · unfold setRating
    rw [listModify_get_ne _ _ _ _ h]

theorem getTitle_eq (store : List Movie) (r : Nat) (m0 : Movie) (tv : Value)
    (h1 : store.get? r = some m0) (h2 : pyGet "title" m0 = some tv) :
    getTitle store r = .ok (pyStr tv) := by
  unfold getTitle
  rw [h1]
  show (match pyGet "title" m0 with
    | some v => (Except.ok (pyStr v) : Except PyErr String)
    | none => .error .keyError) = .ok (pyStr tv)
  rw [h2]

/-- Inversion of one iteration of the rating-fetch loop. -/
theorem fetch_cons_inv (fetch : String → Except PyErr (Option Rat))
    (store store2 : List Movie) (sm : Nat × Nat) (rest : List (Nat × Nat))
    (hrun : fetch_imdb_ratings fetch store (sm :: rest) = .ok store2) :
    ∃ title rat, getTitle store sm.2 = .ok title ∧ fetch title = .ok rat ∧
      fetch_imdb_ratings fetch (setRating store sm.2 rat) rest = .ok store2 := by
  unfold fetch_imdb_ratings at hrun
  rcases ht : getTitle store sm.2 with e | title
  · rw [ht] at hrun
    exact Except.noConfusion
      (show (Except.error e : Except PyErr (List Movie)) = .ok store2 from hrun)
  · rw [ht] at hrun
    have hrun2 : (match fetch title with
        | Except.error e => (Except.error e : Except PyErr (List Movie))
        | Except.ok rat =>
          fetch_imdb_ratings fetch (setRating store sm.2 rat) rest) =
        .ok store2 := hrun
    rcases hf : fetch title with e | rat
    · rw [hf] at hrun2
      exact Except.noConfusion
        (show (Except.error e : Except PyErr (List Movie)) = .ok store2 from hrun2)
    · rw [hf] at hrun2
      exact ⟨title, rat, rfl, hf, hrun2⟩

/-- Records not named in the remaining result entries are untouched by the
rating-fetch loop. -/
theorem fetch_preserves (fetch : String → Except PyErr (Option Rat))
    (results : List (Nat × Nat)) (store store2 : List Movie) (r : Nat)
    (hrun : fetch_imdb_ratings fetch store results = .ok store2)
    (hr : r ∉ results.map Prod.snd) :
    store2.get? r = store.get? r := by
  induction results generalizing store with
  | nil =>
    cases hrun
    rfl
  | cons sm rest ih =>
    rcases fetch_cons_inv fetch store store2 sm rest hrun with
      ⟨title, rat, ht, hf, hrun2⟩
    have hne : r ≠ sm.2 := by
      intro e
      exact hr (by simp [e])
    have hrest : r ∉ rest.map Prod.snd := by
      intro e
      exact hr (by simp [e])
    rw [ih (setRating store sm.2 rat) hrun2 hrest]
    unfold setRating
    exact listModify_get_ne _ _ _ _ hne

/-- After the rating-fetch loop of a search whose results reference record
`r`, the record in the heap holds exactly the value fetched for its title. -/
theorem fetch_sets (fetch : String → Except PyErr (Option Rat))
    (results : List (Nat × Nat)) (store store2 : List Movie) (r : Nat)
    (m0 : Movie) (tv : Value) (rat : Option Rat)
    (hrun : fetch_imdb_ratings fetch store results = .ok store2)
    (hr : r ∈ results.map Prod.snd)
    (hm0 : store.get? r = some m0)
    (htv : pyGet "title" m0 = some tv)
    (hf : fetch (pyStr tv) = .ok rat) :
    ∃ m2, store2.get? r = some m2 ∧
      pyGet "imdb_rating" m2 = some (ratingValue rat) := by
  induction results generalizing store m0 with
  | nil => exact absurd hr (by simp)
  | cons sm rest ih =>
    rcases fetch_cons_inv fetch store store2 sm rest hrun with
      ⟨title, rat2, ht, hf2, hrun2⟩
    by_cases hrest : r ∈ rest.map Prod.snd
    · by_cases he : r = sm.2
      · have hm0b : store.get? sm.2 = some m0 := by
          rw [← he]
          exact hm0
        have hm1 : (setRating store sm.2 rat2).get? r =
            some (dictSet m0 "imdb_rating" (ratingValue rat2)) := by
          rw [he]
          unfold setRating
          rw [listModify_get_self, hm0b]
          rfl
        exact ih (setRating store sm.2 rat2)
          (dictSet m0 "imdb_rating" (ratingValue rat2)) hrun2 hrest hm1
          (by rw [pyGet_dictSet_ne _ _ _ _
            (by decide : "title" ≠ "imdb_rating")]; exact htv)
      · have hm1 : (setRating store sm.2 rat2).get? r = some m0 := by
          unfold setRating
          rw [listModify_get_ne _ _ _ _ he]
          exact hm0
        exact ih (setRating store sm.2 rat2) m0 hrun2 hrest hm1 htv
    · have he : r = sm.2 := by
        rw [List.map_cons] at hr
        rcases List.mem_cons.mp hr with h1 | h1
        · exact h1
        · exact absurd h1 hrest
      have hm0b : store.get? sm.2 = some m0 := by
        rw [← he]
        exact hm0
      have htitle : title = pyStr tv := by
        have ht2 := getTitle_eq store sm.2 m0 tv hm0b htv
        rw [ht] at ht2
        injection ht2
      have hrat : rat2 = rat := by
        rw [htitle] at hf2
        rw [hf2] at hf
        injection hf
      subst hrat
      have hs2 : store2.get? r = (setRating store sm.2 rat2).get? r :=
        fetch_preserves fetch rest (setRating store sm.2 rat2) store2
          r hrun2 hrest
      rw [hs2, he]
      unfold setRating
      rw [listModify_get_self, hm0b]
      exact ⟨_, rfl, pyGet_dictSet_self _ _ _⟩

/-- Inversion of the novel-query branch of `search`: when neither command
matches and the cache misses, the step runs the match engine, then the
rating fetch, and extends cache, history and the fetch counter. -/
theorem search_novel_inv (ratio : String → String → Nat)
    (fetch : String → Except PyErr (Option Rat)) (query : String)
    (st : SessionState) (ret : SearchRet)
    (disp : Option (List (Nat × Nat))) (st2 : SessionState)
    (h1 : pyLower query ≠ "exit") (h2 : pyLower query ≠ "last")
    (h3 : pyGet query st.cache = none)
    (hrun : search ratio fetch query st = .ok (ret, disp, st2)) :
    ∃ results store2,
      perform_search_refs ratio query st.store = .ok results ∧
      fetch_imdb_ratings fetch st.store results = .ok store2 ∧
      ret = .noneRet ∧ disp = some results ∧
      st2 = ⟨store2, st.history ++ [results], st.cache ++ [(query, results)],
        st.fetchCount + results.length⟩ := by
  unfold search at hrun
  rw [if_neg (fun hh => h1 (beq_iff_eq.mp hh)),
    if_neg (fun hh => h2 (beq_iff_eq.mp hh)), h3] at hrun
  have hrun2 : (match perform_search_refs ratio query st.store with
      | Except.error e =>
        (Except.error e :
          Except PyErr (SearchRet × Option (List (Nat × Nat)) × SessionState))
      | Except.ok results =>
        match fetch_imdb_ratings fetch st.store results with
        | Except.error e => Except.error e
        | Except.ok store2 =>
          Except.ok (SearchRet.noneRet, some results,
            ⟨store2, st.history ++ [results], st.cache ++ [(query, results)],
              st.fetchCount + results.length⟩)) = .ok (ret, disp, st2) := hrun
  rcases hp : perform_search_refs ratio query st.store with e | results
  · rw [hp] at hrun2
    exact Except.noConfusion (show (Except.error e :
      Except PyErr (SearchRet × Option (List (Nat × Nat)) × SessionState)) =
        .ok (ret, disp, st2) from hrun2)
  · rw [hp] at hrun2
    have hrun3 : (match fetch_imdb_ratings fetch st.store results with
        | Except.error e =>
          (Except.error e :
            Except PyErr (SearchRet × Option (List (Nat × Nat)) × SessionState))
        | Except.ok store2 =>
          Except.ok (SearchRet.noneRet, some results,
            ⟨store2, st.history ++ [results], st.cache ++ [(query, results)],
              st.fetchCount + results.length⟩)) = .ok (ret, disp, st2) := hrun2
    rcases hfr : fetch_imdb_ratings fetch st.store results with e | store2
    · rw [hfr] at hrun3
      exact Except.noConfusion (show (Except.error e :
        Except PyErr (SearchRet × Option (List (Nat × Nat)) × SessionState)) =
          .ok (ret, disp, st2) from hrun3)
    · rw [hfr] at hrun3
      have hrun4 : (SearchRet.noneRet, some results,
          (⟨store2, st.history ++ [results], st.cache ++ [(query, results)],
            st.fetchCount + results.length⟩ : SessionState)) =
          (ret, disp, st2) := by
        injection hrun3
      injection hrun4 with e1 e2
      injection e2 with e2 e3
      exact ⟨results, store2, rfl, hfr, e1.symm, e2.symm, e3.symm⟩

theorem pyLower_empty_iff (s : String) : pyLower s = "" ↔ s = "" := by
  constructor
  · intro h
    unfold pyLower at h
    have h2 : s.data.map Char.toLower = ([] : List Char) := by
      have h3 := congrArg String.data h
      simpa using h3
    have h4 : s.data = [] := by simpa using h2
    cases s with
    | mk data =>
      have h5 : data = [] := h4
      rw [h5]
  · intro h
    rw [h]
    rfl

/-! ### Concrete fixtures used by witnesses and counterexamples -/

/-- A similarity primitive that matches nothing. -/
def ratioZero : String → String → Nat := fun _ _ => 0

/-- A similarity primitive that matches everything. -/
def ratioFull : String → String → Nat := fun _ _ => 100

def wInception : Movie :=
  [("title", .str "Inception"), ("director", .str "Nolan"),
    ("year", .int 2010), ("genre", .list ["Sci-Fi", "Thriller"])]

def wBlank : Movie :=
  [("title", .str "Blank"), ("director", .str "")]

/-! ### The claims -/

/-- C1: in `perform_search`, a query token containing a colon, parsed as
`field:value` (the parse succeeding with exactly two pieces) with surrounding
double quotes stripped from the value, contributes 1 to a record's match
count iff the record has the field and the field's value rendered as text
equals the value case-insensitively; it contributes 0 otherwise, and it is
never evaluated as a fuzzy title token: its score is the same under every
similarity primitive. -/
theorem claim1_field_token_exact (ratio ratio2 : String → String → Nat)
    (movie : Movie) (part f v : String)
    (hc : pyContains part ':' = true)
    (hs : pySplitColon part = [f, v]) :
    tokenScore ratio movie part = tokenScore ratio2 movie part ∧
    (tokenScore ratio movie part = .ok 1 ↔
      ∃ w, pyGet f movie = some w ∧
        pyLower (pyStr w) = pyLower (stripQuotes v)) ∧
    (tokenScore ratio movie part = .ok 0 ∨
      tokenScore ratio movie part = .ok 1) := by
  have e1 := tokenScore_colon ratio movie part f v hc hs
  have e2 := tokenScore_colon ratio2 movie part f v hc hs
  refine ⟨e1.trans e2.symm, ?_, ?_⟩
  · rw [e1]
    rcases hlk : pyGet f movie with _ | w
    · simp
    · show (if pyLower (pyStr w) == pyLower (stripQuotes v) then
          (Except.ok 1 : Except PyErr Nat) else .ok 0) = .ok 1 ↔
        ∃ w2, some w = some w2 ∧ pyLower (pyStr w2) = pyLower (stripQuotes v)
      by_cases hb : (pyLower (pyStr w) == pyLower (stripQuotes v)) = true
      · rw [if_pos hb]
        constructor
        · intro _
          exact ⟨w, rfl, beq_iff_eq.mp hb⟩
        · intro _
          rfl
      · rw [if_neg hb]
        constructor
        · intro hh
          exact absurd hh (by simp)
        · rintro ⟨w2, hw2, hpe⟩
          injection hw2 with hw2e
          subst hw2e
          exact absurd (beq_iff_eq.mpr hpe) hb
  · rw [e1]
    rcases hlk : pyGet f movie with _ | w
    · left
      rfl
    · show (if pyLower (pyStr w) == pyLower (stripQuotes v) then
          (Except.ok 1 : Except PyErr Nat) else .ok 0) = .ok 0 ∨
        (if pyLower (pyStr w) == pyLower (stripQuotes v) then
          (Except.ok 1 : Except PyErr Nat) else .ok 0) = .ok 1
      split
      · right
        rfl
      · left
        rfl

/-- Witness for C1 at the catalog record of the spec example: the token
`director:Nolan` scores 1 under both a zero and a full similarity primitive,
and the quoted token `director:"Nolan"` behaves identically. -/
theorem claim1_witness :
    tokenScore ratioZero wInception "director:Nolan" =
      tokenScore ratioFull wInception "director:Nolan" ∧
    (tokenScore ratioZero wInception "director:Nolan" = .ok 1 ↔
      ∃ w, pyGet "director" wInception = some w ∧
        pyLower (pyStr w) = pyLower (stripQuotes "Nolan")) ∧
    (tokenScore ratioZero wInception "director:Nolan" = .ok 0 ∨
      tokenScore ratioZero wInception "director:Nolan" = .ok 1) :=
  claim1_field_token_exact ratioZero ratioFull wInception "director:Nolan"
    "director" "Nolan" (by decide) (by decide)

/-- C10: the token `director:"` (value part a single double-quote character)
passes both quotation tests, is stripped to the empty string, and matches
exactly the records whose `director` field renders to the empty text;
it is scored identically under every similarity primitive. -/
theorem claim10_quote_token (ratio ratio2 : String → String → Nat)
    (movie : Movie) :
    pyStartsWith "\"" "\"" = true ∧ pyEndsWith "\"" "\"" = true ∧
    stripQuotes "\"" = "" ∧
    tokenScore ratio movie "director:\"" = tokenScore ratio2 movie "director:\"" ∧
    (tokenScore ratio movie "director:\"" = .ok 1 ↔
      ∃ w, pyGet "director" movie = some w ∧ pyStr w = "") ∧
    (tokenScore ratio movie "director:\"" = .ok 0 ∨
      tokenScore ratio movie "director:\"" = .ok 1) := by
  have e1 := tokenScore_colon ratio movie "director:\"" "director" "\""
    (by decide) (by decide)
  have e2 := tokenScore_colon ratio2 movie "director:\"" "director" "\""
    (by decide) (by decide)
  have hq : stripQuotes "\"" = "" := by decide
  refine ⟨by decide, by decide, hq, e1.trans e2.symm, ?_, ?_⟩
  · rw [e1, hq]
    rcases hlk : pyGet "director" movie with _ | w
    · simp
    · show (if pyLower (pyStr w) == pyLower "" then
          (Except.ok 1 : Except PyErr Nat) else .ok 0) = .ok 1 ↔
        ∃ w2, some w = some w2 ∧ pyStr w2 = ""
      by_cases hb : (pyLower (pyStr w) == pyLower "") = true
      · rw [if_pos hb]
        have hw : pyStr w = "" :=
          (pyLower_empty_iff (pyStr w)).mp (beq_iff_eq.mp hb)
        constructor
        · intro _
          exact ⟨w, rfl, hw⟩
        · intro _
          rfl
      · rw [if_neg hb]
        constructor
        · intro hh
          exact absurd hh (by simp)
        · rintro ⟨w2, hw2, hpe⟩
          injection hw2 with hw2e
          subst hw2e
          exact absurd (beq_iff_eq.mpr
            ((pyLower_empty_iff (pyStr w)).mpr hpe)) hb
  · rw [e1, hq]
    rcases hlk : pyGet "director" movie with _ | w
    · left
      rfl
    · show (if pyLower (pyStr w) == pyLower "" then
          (Except.ok 1 : Except PyErr Nat) else .ok 0) = .ok 0 ∨
        (if pyLower (pyStr w) == pyLower "" then
          (Except.ok 1 : Except PyErr Nat) else .ok 0) = .ok 1
      split
      · right
        rfl
      · left
        rfl

/-- Witness for C10: against a record whose `director` renders empty the
token `director:"` scores 1, and against the Inception record it scores 0. -/
theorem claim10_witness :
    (tokenScore ratioZero wBlank "director:\"" = .ok 1 ↔
      ∃ w, pyGet "director" wBlank = some w ∧ pyStr w = "") ∧
    tokenScore ratioZero wBlank "director:\"" = .ok 1 ∧
    tokenScore ratioZero wInception "director:\"" = .ok 0 :=
  ⟨(claim10_quote_token ratioZero ratioFull wBlank).2.2.2.2.1,
    by decide, by decide⟩

/-- Counterexample to C5 as stated: the token `a:b:c` contains more than one
colon, so `field, value = part.split(":")` raises `ValueError` and
`perform_search` is not total — the malformed token is not treated as a
non-match. -/
theorem claim5_counterexample :
    perform_search ratioZero "a:b:c" [wInception] = .error .valueError ∧
    pyContains "a:b:c" ':' = true :=
  ⟨by decide, by decide⟩

/-- C5 amended: `perform_search` evaluates without an exception whenever
every colon-containing token splits into exactly two pieces and every record
has a string title; a well-formed `field:value` token whose field is absent
from a record contributes 0 (a non-match, not an error).  (A token with two
or more colons raises `ValueError`, as the counterexample shows.) -/
theorem claim5_amended (ratio : String → String → Nat) (query : String)
    (movies : List Movie)
    (htitle : ∀ m ∈ movies, ∃ t, pyGet "title" m = some (Value.str t))
    (hcolon : ∀ part ∈ pySplitWs query, pyContains part ':' = true →
      ∃ f v, pySplitColon part = [f, v]) :
    (∃ res, perform_search ratio query movies = .ok res) ∧
    (∀ (m : Movie) (part f v : String), pyContains part ':' = true →
      pySplitColon part = [f, v] → pyGet f m = none →
      tokenScore ratio m part = .ok 0) := by
  constructor
  · obtain ⟨kept, hk⟩ := keptList_ok ratio (pySplitWs query) movies
      (fun m hm => movieScore_ok ratio m (pySplitWs query)
        (fun part hp => tokenScore_ok ratio m part (htitle m hm)
          (fun hc => hcolon part hp hc)) 0)
    refine ⟨sortDesc kept, ?_⟩
    unfold perform_search
    rw [hk]
  · intro m part f v hc hs hn
    rw [tokenScore_colon ratio m part f v hc hs, hn]

/-- Witness for the amended C5: the query `x:y` names a field absent from
the record; the search succeeds with an empty result and the token
contributes 0. -/
theorem claim5_witness :
    perform_search ratioZero "x:y" [wInception] = .ok [] ∧
    tokenScore ratioZero wInception "x:y" = .ok 0 := by
  have hsplit : pySplitWs "x:y" = ["x:y"] := by decide
  have h := claim5_amended ratioZero "x:y" [wInception]
    (by
      intro m hm
      have hm2 : m = wInception := List.mem_singleton.mp hm
      subst hm2
      exact ⟨"Inception", rfl⟩)
    (by
      intro part hp hc
      rw [hsplit] at hp
      have hp2 : part = "x:y" := List.mem_singleton.mp hp
      subst hp2
      exact ⟨"x", "y", by decide⟩)
  exact ⟨by decide, h.2 wInception "x:y" "x" "y" (by decide) (by decide)
    (by decide)⟩

/-- C7: when every token of the query scores 0 against every record — in
particular for the empty query, whose token list is empty — `perform_search`
returns the empty list: only records with positive match count are kept. -/
theorem claim7_no_match_empty (ratio : String → String → Nat) (query : String)
    (movies : List Movie)
    (h : ∀ m ∈ movies, ∀ part ∈ pySplitWs query,
      tokenScore ratio m part = .ok 0) :
    perform_search ratio query movies = .ok [] := by
  unfold perform_search
  rw [keptList_all_zero ratio (pySplitWs query) movies
    (fun m hm => movieScore_all_zero ratio m (pySplitWs query) 0 (h m hm))]
  rfl

/-- Witness for C7: a query of non-matching fuzzy tokens, and the empty
query, both return the empty result on a singleton catalog. -/
theorem claim7_witness :
    perform_search ratioZero "qqq zzz" [wInception] = .ok [] ∧
    perform_search ratioZero "" [wInception] = .ok [] := by
  constructor
  · apply claim7_no_match_empty
    intro m hm part hp
    have hm2 : m = wInception := List.mem_singleton.mp hm
    subst hm2
    rw [(by decide : pySplitWs "qqq zzz" = ["qqq", "zzz"])] at hp
    rcases List.mem_cons.mp hp with h1 | h1
    · subst h1
      decide
    · have h2 : part = "zzz" := List.mem_singleton.mp h1
      subst h2
      decide
  · apply claim7_no_match_empty
    intro m hm part hp
    rw [(by decide : pySplitWs "" = ([] : List String))] at hp
    exact absurd hp (List.not_mem_nil _)

/-- C9: every pair returned by a successful `perform_search` has an integer
score between 1 and the number of whitespace tokens of the query, its movie
is drawn from the catalog, and no record occurs in the results more often
than in the catalog. -/
theorem claim9_bounds (ratio : String → String → Nat) (query : String)
    (movies : List Movie) (res : List (Nat × Movie))
    (h : perform_search ratio query movies = .ok res) :
    (∀ s m, (s, m) ∈ res →
      1 ≤ s ∧ s ≤ (pySplitWs query).length ∧ m ∈ movies) ∧
    (res.map Prod.snd).Subperm movies ∧
    (∀ m : Movie, (res.map Prod.snd).countP (fun x => x == m) ≤
      movies.countP (fun x => x == m)) := by
  unfold perform_search at h
  rcases hk : keptList ratio (pySplitWs query) movies with e | kept
  · rw [hk] at h
    exact absurd h (by simp)
  · rw [hk] at h
    have h2 : Except.ok (sortDesc kept) =
        (Except.ok res : Except PyErr (List (Nat × Movie))) := h
    injection h2 with h3
    subst h3
    have hsub : ((sortDesc kept).map Prod.snd).Subperm movies :=
      ⟨kept.map Prod.snd, ((sortDesc_perm kept).map Prod.snd).symm,
        keptList_sublist ratio _ movies kept hk⟩
    refine ⟨?_, hsub, fun m => hsub.countP_le (fun x => x == m)⟩
    intro s m hm
    have hmem : (s, m) ∈ kept := (sortDesc_perm kept).subset hm
    obtain ⟨hsc, hpos, hmm⟩ := keptList_mem ratio _ movies kept s m hk hmem
    have hb := movieScore_bounds ratio m _ 0 s hsc
    exact ⟨hpos, by simpa using hb.2, hmm⟩

/-- Witness for C9 at the spec example: the two-token query scores 2 on the
Inception record, within bounds, and the record count is preserved. -/
theorem claim9_witness :
    (1 ≤ 2 ∧ 2 ≤ (pySplitWs "Incep title:Inception").length ∧
      wInception ∈ [wInception]) ∧
    (([(2, wInception)].map Prod.snd).countP (fun x => x == wInception) ≤
      [wInception].countP (fun x => x == wInception)) :=
  ⟨(claim9_bounds ratioFull "Incep title:Inception" [wInception]
      [(2, wInception)] (by decide)).1 2 wInception (by decide),
    (claim9_bounds ratioFull "Incep title:Inception" [wInception]
      [(2, wInception)] (by decide)).2.2 wInception⟩

/-- C3: a successful `perform_search` returns a list sorted by weakly
descending score; within each score the kept pairs appear exactly as the
pre-sort pass produced them, and that pass lists records in catalog
encounter order (its movies form a sublist of the catalog). -/
theorem claim3_sorted_stable (ratio : String → String → Nat) (query : String)
    (movies : List Movie) (kept res : List (Nat × Movie))
    (hk : keptList ratio (pySplitWs query) movies = .ok kept)
    (h : perform_search ratio query movies = .ok res) :
    res.Pairwise (fun a b => b.1 ≤ a.1) ∧
    (∀ s : Nat, res.filter (fun p => p.1 == s) =
      kept.filter (fun p => p.1 == s)) ∧
    (kept.map Prod.snd).Sublist movies := by
  unfold perform_search at h
  rw [hk] at h
  have h2 : Except.ok (sortDesc kept) =
      (Except.ok res : Except PyErr (List (Nat × Movie))) := h
  injection h2 with h3
  subst h3
  exact ⟨sortDesc_pairwise kept, fun s => sortDesc_filter_score kept s,
    keptList_sublist ratio _ movies kept hk⟩

def wTieA : Movie := [("title", .str "T"), ("director", .str "A")]

def wTieB : Movie := [("title", .str "T"), ("director", .str "B")]

/-- Witness for C3: two records tie on score 1 for the query `title:T` and
come back in catalog encounter order, sorted. -/
theorem claim3_witness :
    ([(1, wTieA), (1, wTieB)] : List (Nat × Movie)).Pairwise
      (fun a b => b.1 ≤ a.1) ∧
    [(1, wTieA), (1, wTieB)].filter (fun p => p.1 == 1) =
      [(1, wTieA), (1, wTieB)].filter (fun p => p.1 == 1) ∧
    ([(1, wTieA), (1, wTieB)].map Prod.snd).Sublist [wTieA, wTieB] := by
  have h := claim3_sorted_stable ratioZero "title:T" [wTieA, wTieB]
    [(1, wTieA), (1, wTieB)] [(1, wTieA), (1, wTieB)] (by decide) (by decide)
  exact ⟨h.1, h.2.1 1, h.2.2⟩

theorem processRow_genre (row : Row) (m : Movie)
    (h : processRow row = .ok m) :
    ∃ g, pyGet "genre" row = some g ∧
      pyGet "genre" m = some (Value.list (genreSplit g)) := by
  unfold processRow at h
  rcases hy : pyGet "year" row with _ | yearStr
  · rw [hy] at h
    exact absurd h (by simp)
  · rw [hy] at h
    rcases hg : pyGet "genre" row with _ | g
    · rw [hg] at h
      exact absurd h (by simp)
    · rw [hg] at h
      have h2 : Except.ok (dictSet (processRowYear row yearStr) "genre"
          (Value.list (genreSplit g))) = (Except.ok m : Except PyErr Movie) := h
      injection h2 with h3
      exact ⟨g, rfl, by rw [← h3]; exact pyGet_dictSet_self _ _ _⟩

/-- Counterexample to C8 as stated: the genre text `A |  B` (two spaces
before `B`) loads as the sequence `["A", " B"]`, whose second element keeps
its leading whitespace — not the trimmed sequence the claim predicts. -/
theorem claim8_counterexample :
    load_movies [[("title", "T"), ("director", "D"), ("year", "2000"),
      ("genre", "A |  B")]] =
      .ok [[("title", Value.str "T"), ("director", Value.str "D"),
        ("year", Value.int 2000), ("genre", Value.list ["A", " B"])]] ∧
    genreSplitTrimmedSpec "A |  B" = ["A", "B"] ∧
    Value.list ["A", " B"] ≠ Value.list (genreSplitTrimmedSpec "A |  B") :=
  ⟨by decide, by decide, by decide⟩

/-- C8 amended: for every loaded row, the genre field is set to the ordered
sequence obtained by splitting the original genre text on the literal
separator `" | "`; the elements are not additionally trimmed (spaces
adjacent to the separator disappear only because the separator itself
contains them). -/
theorem claim8_amended (rows : List Row) (ms : List Movie)
    (h : load_movies rows = .ok ms) :
    ∀ p ∈ rows.zip ms, ∃ g, pyGet "genre" p.1 = some g ∧
      pyGet "genre" p.2 = some (Value.list (genreSplit g)) := by
  induction rows generalizing ms with
  | nil =>
    cases h
    intro p hp
    exact absurd hp (by simp)
  | cons r rs ih =>
    unfold load_movies at h
    rcases hr : processRow r with e | m
    · rw [hr] at h
      exact absurd h (by simp)
    · rw [hr] at h
      rcases hl : load_movies rs with e | ms2
      · rw [hl] at h
        exact absurd h (by simp)
      · rw [hl] at h
        have h2 : Except.ok (m :: ms2) =
            (Except.ok ms : Except PyErr (List Movie)) := h
        injection h2 with h3
        subst h3
        intro p hp
        rw [List.zip_cons_cons] at hp
        rcases List.mem_cons.mp hp with h4 | h4
        · subst h4
          exact processRow_genre r m hr
        · exact ih ms2 hl p h4

/-- Witness for the amended C8 on a concrete one-row catalog. -/
theorem claim8_witness :
    pyGet "genre" [("title", Value.str "T"), ("year", Value.int 1999),
      ("genre", Value.list ["Sci-Fi", "Thriller"])] =
      some (Value.list (genreSplit "Sci-Fi | Thriller")) := by
  obtain ⟨g, hg1, hg2⟩ := claim8_amended
    [[("title", "T"), ("year", "1999"), ("genre", "Sci-Fi | Thriller")]]
    [[("title", Value.str "T"), ("year", Value.int 1999),
      ("genre", Value.list ["Sci-Fi", "Thriller"])]]
    (by decide)
    ([("title", "T"), ("year", "1999"), ("genre", "Sci-Fi | Thriller")],
      [("title", Value.str "T"), ("year", Value.int 1999),
        ("genre", Value.list ["Sci-Fi", "Thriller"])])
    (by decide)
  have he : pyGet "genre"
      [("title", "T"), ("year", "1999"), ("genre", "Sci-Fi | Thriller")] =
      some "Sci-Fi | Thriller" := by decide
  rw [hg1] at he
  injection he with he2
  rw [← he2]
  exact hg2

/-! ### Claim C2: the Rating Fetcher -/

theorem get_imdb_rating_ok (pyFloat : String → Option Rat)
    (r : HttpResponse) :
    get_imdb_rating pyFloat (.ok r) =
      if r.status_code == 200 then
        match r.jsonBody with
        | .error e => .error e
        | .ok data =>
          match pyGet "imdbRating" data with
          | some rating =>
            if rating != "" then
              match pyFloat rating with
              | some v => .ok (some v)
              | none => .error .valueError
            else .ok none
          | none => .ok none
      else .ok none := rfl

theorem get_imdb_rating_200 (pyFloat : String → Option Rat)
    (r : HttpResponse) (data : List (String × String))
    (hst : r.status_code = 200) (hj : r.jsonBody = .ok data) :
    get_imdb_rating pyFloat (.ok r) =
      match pyGet "imdbRating" data with
      | some rating =>
        if rating != "" then
          match pyFloat rating with
          | some v => .ok (some v)
          | none => .error .valueError
        else .ok none
      | none => .ok none := by
  rw [get_imdb_rating_ok, if_pos (beq_iff_eq.mpr hst), hj]

theorem get_imdb_rating_200_badjson (pyFloat : String → Option Rat)
    (r : HttpResponse) (e : PyErr)
    (hst : r.status_code = 200) (hj : r.jsonBody = .error e) :
    get_imdb_rating pyFloat (.ok r) = .error e := by
  rw [get_imdb_rating_ok, if_pos (beq_iff_eq.mpr hst), hj]

theorem get_imdb_rating_rating (pyFloat : String → Option Rat)
    (r : HttpResponse) (data : List (String × String)) (rating : String)
    (hst : r.status_code = 200) (hj : r.jsonBody = .ok data)
    (hrt : pyGet "imdbRating" data = some rating) (hne : rating ≠ "") :
    get_imdb_rating pyFloat (.ok r) =
      match pyFloat rating with
      | some v => .ok (some v)
      | none => .error .valueError := by
  rw [get_imdb_rating_200 pyFloat r data hst hj, hrt]
  show (if rating != "" then
      match pyFloat rating with
      | some v => (Except.ok (some v) : Except PyErr (Option Rat))
      | none => .error .valueError
    else .ok none) = _
  rw [if_pos (bne_iff_ne.mpr hne)]

/-- Counterexample to C2 as stated: on HTTP 200 with the rating field
`"N/A"` — OMDb's marker for a missing rating, not a parseable number — the
function raises `ValueError` from `float(rating)` instead of returning the
absent value. -/
theorem claim2_counterexample :
    get_imdb_rating str2float
      (.ok ⟨200, .ok [("imdbRating", "N/A")]⟩) = .error .valueError ∧
    str2float "N/A" = none :=
  ⟨by decide, by decide⟩

/-- C2 amended: `get_imdb_rating` issues exactly one request per call with
no retry — the explicitly counted form consumes one transport outcome and
increments the call count by exactly one whatever that outcome is, and its
result is determined by that single response — and it returns the parsed
float on status 200 with a present, non-empty, parseable rating field; it
returns the absent value on a non-200 status and on a missing or empty
rating field; but it does not catch exceptions: a raised transport error, a
malformed 200 body, and a present non-numeric rating value all propagate
(the last as `ValueError`). -/
theorem claim2_amended (pyFloat : String → Option Rat)
    (resp : Except PyErr HttpResponse) :
    (∀ (net : Nat → Except PyErr HttpResponse) (calls : Nat),
      get_imdb_rating_counting pyFloat net calls =
        (get_imdb_rating pyFloat (net calls), calls + 1)) ∧
    (∀ e, resp = .error e → get_imdb_rating pyFloat resp = .error e) ∧
    (∀ r, resp = .ok r → r.status_code ≠ 200 →
      get_imdb_rating pyFloat resp = .ok none) ∧
    (∀ r data, resp = .ok r → r.status_code = 200 → r.jsonBody = .ok data →
      pyGet "imdbRating" data = none →
      get_imdb_rating pyFloat resp = .ok none) ∧
    (∀ r data, resp = .ok r → r.status_code = 200 → r.jsonBody = .ok data →
      pyGet "imdbRating" data = some "" →
      get_imdb_rating pyFloat resp = .ok none) ∧
    (∀ r e, resp = .ok r → r.status_code = 200 → r.jsonBody = .error e →
      get_imdb_rating pyFloat resp = .error e) ∧
    (∀ r data rating v, resp = .ok r → r.status_code = 200 →
      r.jsonBody = .ok data → pyGet "imdbRating" data = some rating →
      rating ≠ "" → pyFloat rating = some v →
      get_imdb_rating pyFloat resp = .ok (some v)) ∧
    (∀ r data rating, resp = .ok r → r.status_code = 200 →
      r.jsonBody = .ok data → pyGet "imdbRating" data = some rating →
      rating ≠ "" → pyFloat rating = none →
      get_imdb_rating pyFloat resp = .error .valueError) := by
  refine ⟨?_, ?_, ?_, ?_, ?_, ?_, ?_, ?_⟩
  · intro net calls
    rfl
  · intro e he
    rw [he]
    rfl
  · intro r he hne
    rw [he, get_imdb_rating_ok, if_neg (fun hh => hne (beq_iff_eq.mp hh))]
  · intro r data he hst hj hn
    rw [he, get_imdb_rating_200 pyFloat r data hst hj, hn]
  · intro r data he hst hj hq
    rw [he, get_imdb_rating_200 pyFloat r data hst hj, hq]
    rfl
  · intro r e he hst hj
    rw [he]
    exact get_imdb_rating_200_badjson pyFloat r e hst hj
  · intro r data rating v he hst hj hrt hne hpf
    rw [he, get_imdb_rating_rating pyFloat r data rating hst hj hrt hne, hpf]
  · intro r data rating he hst hj hrt hne hpf
    rw [he, get_imdb_rating_rating pyFloat r data rating hst hj hrt hne, hpf]

/-- Witness for the amended C2: one call through every path of the
characterization — the single counted request (also after a transport
failure: the count rises from 5 to 6, nothing retries), a propagated
network error, a non-200 status, a missing rating field, an empty rating
field, a malformed 200 body, a parseable rating, and a non-numeric rating
raising `ValueError` — each applied at a concrete response. -/
theorem claim2_witness :
    get_imdb_rating_counting (fun _ => some (8 : Rat))
      (fun _ => .error .netError) 5 = (.error .netError, 6) ∧
    get_imdb_rating (fun _ => some (8 : Rat)) (.error .netError) =
      .error .netError ∧
    get_imdb_rating (fun _ => some (8 : Rat)) (.ok ⟨404, .ok []⟩) = .ok none ∧
    get_imdb_rating (fun _ => some (8 : Rat))
      (.ok ⟨200, .ok [("Title", "Inception")]⟩) = .ok none ∧
    get_imdb_rating (fun _ => some (8 : Rat))
      (.ok ⟨200, .ok [("imdbRating", "")]⟩) = .ok none ∧
    get_imdb_rating (fun _ => some (8 : Rat)) (.ok ⟨200, .error .jsonError⟩) =
      .error .jsonError ∧
    get_imdb_rating (fun _ => some (8 : Rat))
      (.ok ⟨200, .ok [("imdbRating", "7.4")]⟩) = .ok (some 8) ∧
    get_imdb_rating (fun _ => (none : Option Rat))
      (.ok ⟨200, .ok [("imdbRating", "N/A")]⟩) = .error .valueError :=
  ⟨(claim2_amended (fun _ => some (8 : Rat)) (.error .netError)).1
      (fun _ => .error .netError) 5,
    (claim2_amended (fun _ => some (8 : Rat)) (.error .netError)).2.1
      .netError rfl,
    (claim2_amended (fun _ => some (8 : Rat)) (.ok ⟨404, .ok []⟩)).2.2.1
      _ rfl (by decide),
    (claim2_amended (fun _ => some (8 : Rat))
      (.ok ⟨200, .ok [("Title", "Inception")]⟩)).2.2.2.1 _ _ rfl rfl rfl
      (by decide),
    (claim2_amended (fun _ => some (8 : Rat))
      (.ok ⟨200, .ok [("imdbRating", "")]⟩)).2.2.2.2.1 _ _ rfl rfl rfl
      (by decide),
    (claim2_amended (fun _ => some (8 : Rat))
      (.ok ⟨200, .error .jsonError⟩)).2.2.2.2.2.1 _ .jsonError rfl rfl rfl,
    (claim2_amended (fun _ => some (8 : Rat))
      (.ok ⟨200, .ok [("imdbRating", "7.4")]⟩)).2.2.2.2.2.2.1
      _ _ "7.4" 8 rfl rfl rfl (by decide) (by decide) rfl,
    (claim2_amended (fun _ => (none : Option Rat))
      (.ok ⟨200, .ok [("imdbRating", "N/A")]⟩)).2.2.2.2.2.2.2
      _ _ "N/A" rfl rfl rfl (by decide) (by decide) rfl⟩

/-! ### Claims C4 and C6: the Session Controller -/

/-- C4: a query string that is not `exit` or `last` case-insensitively and
is a key of the cache (exactly, case-sensitively — the keys are the raw
query strings of earlier novel searches) makes the session step render the
cached result set and leave the whole state — store, history, cache and the
count of rating fetches made so far — unchanged; the step is the same for
every similarity primitive and every transport, so neither `perform_search`
nor any rating fetch can influence it. -/
theorem claim4_cache_hit (ratio : String → String → Nat)
    (fetch : String → Except PyErr (Option Rat)) (query : String)
    (st : SessionState) (rs : List (Nat × Nat))
    (h1 : pyLower query ≠ "exit") (h2 : pyLower query ≠ "last")
    (h3 : pyGet query st.cache = some rs) :
    search ratio fetch query st = .ok (.noneRet, some rs, st) := by
  unfold search
  rw [if_neg (fun hh => h1 (beq_iff_eq.mp hh)),
    if_neg (fun hh => h2 (beq_iff_eq.mp hh)), h3]

def wState : SessionState :=
  ⟨[wInception], [[(1, 0)]], [("Incep", [(1, 0)])], 1⟩

/-- Witness for C4: repeating the cached query `Incep` returns the cached
result set and the state — including the fetch counter — verbatim. -/
theorem claim4_witness :
    search ratioZero (fun _ => .ok none) "Incep" wState =
      .ok (.noneRet, some [(1, 0)], wState) :=
  claim4_cache_hit ratioZero (fun _ => .ok none) "Incep" wState [(1, 0)]
    (by decide) (by decide) (by decide)

/-- C6: one movie record referenced (by the same store index) from two
result sets held in the session cache is one shared instance: when a later
novel search's rating fetch succeeds for that record, the rating observed
through the entries of both earlier cached result sets is the fetched
value — the mutation is visible through every reference simultaneously. -/
theorem claim6_shared_record (ratio : String → String → Nat)
    (fetch : String → Except PyErr (Option Rat)) (query q1 q2 : String)
    (st : SessionState) (ret : SearchRet) (newRs rs1 rs2 : List (Nat × Nat))
    (st2 : SessionState) (s1 s2 r : Nat) (m0 : Movie) (tv : Value)
    (rat : Option Rat)
    (hq1 : pyGet q1 st.cache = some rs1) (hq2 : pyGet q2 st.cache = some rs2)
    (hm1 : (s1, r) ∈ rs1) (hm2 : (s2, r) ∈ rs2)
    (he : pyLower query ≠ "exit") (hl : pyLower query ≠ "last")
    (hc : pyGet query st.cache = none)
    (hrun : search ratio fetch query st = .ok (ret, some newRs, st2))
    (hr : r ∈ newRs.map Prod.snd)
    (hm0 : st.store.get? r = some m0) (htv : pyGet "title" m0 = some tv)
    (hf : fetch (pyStr tv) = .ok rat) :
    observeRating st2.store (s1, r) = some (ratingValue rat) ∧
    observeRating st2.store (s2, r) = some (ratingValue rat) := by
  obtain ⟨results, store2, hp, hfr, hret, hdisp, hst2⟩ :=
    search_novel_inv ratio fetch query st ret (some newRs) st2 he hl hc hrun
  injection hdisp with hdisp2
  subst hdisp2
  obtain ⟨m2, hget, hrate⟩ :=
    fetch_sets fetch newRs st.store store2 r m0 tv rat hfr hr hm0 htv hf
  have hstore : st2.store = store2 := by rw [hst2]
  have key1 : observeRating st2.store (s1, r) = some (ratingValue rat) := by
    show (match st2.store.get? r with
      | some m => pyGet "imdb_rating" m
      | none => none) = some (ratingValue rat)
    rw [hstore, hget]
    exact hrate
  have key2 : observeRating st2.store (s2, r) = some (ratingValue rat) := by
    show (match st2.store.get? r with
      | some m => pyGet "imdb_rating" m
      | none => none) = some (ratingValue rat)
    rw [hstore, hget]
    exact hrate
  exact ⟨key1, key2⟩

def wState6 : SessionState :=
  ⟨[wTieA], [], [("q1", [(1, 0)]), ("q2", [(2, 0)])], 0⟩

/-- Witness for C6: record 0 sits in both cached result sets of `wState6`;
after the novel search `title:T` fetches its rating, both cached entries
observe the new rating. -/
theorem claim6_witness :
    observeRating [[("title", Value.str "T"), ("director", Value.str "A"),
      ("imdb_rating", Value.float 8)]] (1, 0) =
      some (ratingValue (some 8)) ∧
    observeRating [[("title", Value.str "T"), ("director", Value.str "A"),
      ("imdb_rating", Value.float 8)]] (2, 0) =
      some (ratingValue (some 8)) :=
  claim6_shared_record ratioZero (fun _ => .ok (some 8)) "title:T" "q1" "q2"
    wState6 .noneRet [(1, 0)] [(1, 0)] [(2, 0)]
    ⟨[[("title", Value.str "T"), ("director", Value.str "A"),
      ("imdb_rating", Value.float 8)]], [[(1, 0)]],
      [("q1", [(1, 0)]), ("q2", [(2, 0)]), ("title:T", [(1, 0)])], 1⟩
    1 2 0 wTieA (Value.str "T") (some 8)
    (by decide) (by decide) (by decide) (by decide) (by decide) (by decide)
    (by decide) (by decide) (by decide) (by decide) (by decide) (by decide)

end Jetflix
